import Mathlib

/-!
Verification of the Conway Game of Life simulation engine
(`src/game_of_life.py`, class `GameOfLife`, plus the dimension validation
in `SettingsFrame.save`).

Modelling conventions:
* A cell state is a `Bool`: `true` = Alive (Python `True`), `false` = Dead.
* The grid is a `List (List Bool)` indexed `grid[y][x]`, exactly as in the
  Python code (`self.grid = [[False for _ in range(width)] for _ in range(height)]`).
* Python `int` becomes `Int`.  `range(n)` for an `Int` argument `n` produces
  `n.toNat` elements (empty when `n ≤ 0`), matching CPython.
* Reads `self.grid[y][x]` appear in the code only under guards
  `0 ≤ x < width` and `0 ≤ y < height`, so they are modelled with
  `List.getD` at the (then valid) indices `y.toNat`, `x.toNat`.
* The constructor body raises no exception; `initE` makes that explicit by
  wrapping the result in an (always `ok`) exception channel, mirroring the
  fact that Python constructor calls may in principle raise.
-/

structure GameOfLife where
  width : Int
  height : Int
  grid : List (List Bool)
deriving Repr, DecidableEq

namespace GameOfLife

/-- Python `GameOfLife.__init__(self, width, height)`:
`self.width = width; self.height = height;
self.grid = [[False for _ in range(width)] for _ in range(height)]`. -/
def init (width height : Int) : GameOfLife :=
  { width := width
    height := height
    grid := List.replicate height.toNat (List.replicate width.toNat false) }

/-- The constructor with Python's exception channel made explicit: the body
of `__init__` consists of two attribute assignments and list comprehensions
over `range`, none of which can raise, so construction always succeeds
(there is no dimension validation in `GameOfLife.__init__`). -/
def initE (width height : Int) : Except String GameOfLife :=
  Except.ok (init width height)

/-- The read `self.grid[y][x]`.  In the Python code this read is always
guarded by `0 ≤ x < width` and `0 ≤ y < height` (or `x`, `y` come from
`range`), so modelling it with `getD` at `y.toNat`, `x.toNat` is faithful
at every occurrence. -/
def cellVal (g : GameOfLife) (x y : Int) : Bool :=
  (g.grid.getD y.toNat []).getD x.toNat false

/-- Python `GameOfLife.count_neighbors(self, x, y)`:
```
count = 0
for dy in (-1, 0, 1):
    for dx in (-1, 0, 1):
        if dx == 0 and dy == 0:
            continue
        nx, ny = x + dx, y + dy
        if 0 <= nx < self.width and 0 <= ny < self.height:
            count += self.grid[ny][nx]
return count
```
(`count += bool` adds 1 for `True`, 0 for `False`). -/
def count_neighbors (g : GameOfLife) (x y : Int) : Int :=
  ([-1, 0, 1] : List Int).foldl (fun count dy =>
    ([-1, 0, 1] : List Int).foldl (fun count dx =>
      if dx = 0 ∧ dy = 0 then count
      else
        let nx := x + dx
        let ny := y + dy
        if 0 ≤ nx ∧ nx < g.width ∧ 0 ≤ ny ∧ ny < g.height then
          count + (if cellVal g nx ny then 1 else 0)
        else count) count) 0

/-- Python `GameOfLife.next_generation(self)`:
```
new_grid = [[False for _ in range(self.width)] for _ in range(self.height)]
for y in range(self.height):
    for x in range(self.width):
        neighbors = self.count_neighbors(x, y)
        if self.grid[y][x]:
            new_grid[y][x] = 2 <= neighbors <= 3
        else:
            new_grid[y][x] = neighbors == 3
self.grid = new_grid
```
The nested loops mutate `new_grid`; this is modelled by folds threading the
`new_grid` state, each step assigning index `[y][x]`.  All reads
(`count_neighbors`, `self.grid[y][x]`) are against the old grid `g`. -/
def next_generation (g : GameOfLife) : GameOfLife :=
  let new_grid :=
    (List.range g.height.toNat).foldl (fun ng (y : Nat) =>
      (List.range g.width.toNat).foldl (fun ng (x : Nat) =>
        let neighbors := g.count_neighbors (x : Int) (y : Int)
        ng.set y ((ng.getD y []).set x
          (if cellVal g (x : Int) (y : Int) then
            decide (2 ≤ neighbors ∧ neighbors ≤ 3)
          else
            decide (neighbors = 3)))) ng)
      (List.replicate g.height.toNat (List.replicate g.width.toNat false))
  { g with grid := new_grid }

/-- Python `GameOfLife.toggle_cell(self, x, y)`:
```
if 0 <= x < self.width and 0 <= y < self.height:
    self.grid[y][x] = not self.grid[y][x]
``` -/
def toggle_cell (g : GameOfLife) (x y : Int) : GameOfLife :=
  if 0 ≤ x ∧ x < g.width ∧ 0 ≤ y ∧ y < g.height then
    { g with grid :=
        g.grid.set y.toNat ((g.grid.getD y.toNat []).set x.toNat (! cellVal g x y)) }
  else g

/-- Python `GameOfLife.clear_grid(self)`:
`self.grid = [[False for _ in range(self.width)] for _ in range(self.height)]`. -/
def clear_grid (g : GameOfLife) : GameOfLife :=
  { g with grid := List.replicate g.height.toNat (List.replicate g.width.toNat false) }

end GameOfLife

/-- The dimension validation performed by the configuration provider,
`SettingsFrame.save`:
`if width < 1 or height < 1 or cell_size < 1 or interval < 1: raise ValueError(...)`
— returns `true` iff the values are accepted (no `ValueError`). -/
def settingsSaveAccepts (width height cell_size interval : Int) : Bool :=
  if width < 1 ∨ height < 1 ∨ cell_size < 1 ∨ interval < 1 then false else true

/-- The state-mutating operations of the engine's public surface.
`count` records a call to `count_neighbors(x, y)`, whose body only reads
(`count` is a local variable; there is no assignment to `self` anywhere in
it), so its effect on the engine state is the identity. -/
inductive Op where
  | toggle (x y : Int)
  | next
  | clear
  | count (x y : Int)
deriving Repr, DecidableEq

def applyOp (g : GameOfLife) : Op → GameOfLife
  | Op.toggle x y => g.toggle_cell x y
  | Op.next => g.next_generation
  | Op.clear => g.clear_grid
  | Op.count _ _ => g

def runOps (g : GameOfLife) (ops : List Op) : GameOfLife :=
  ops.foldl applyOp g

/-- The 8 Moore-neighborhood offsets `(dx, dy)`, in the iteration order of
`count_neighbors` (`dy` outer, `dx` inner, `(0, 0)` skipped). -/
def neighborOffsets : List (Int × Int) :=
  [(-1, -1), (0, -1), (1, -1), (-1, 0), (1, 0), (-1, 1), (0, 1), (1, 1)]

/-- Well-formedness of the grid representation: exactly `height` rows, each
of exactly `width` entries (with the Python `range` convention that a
non-positive dimension yields 0 of them). -/
def GameOfLife.WF (g : GameOfLife) : Prop :=
  g.grid.length = g.height.toNat ∧ ∀ row ∈ g.grid, row.length = g.width.toNat

instance (g : GameOfLife) : Decidable g.WF :=
  inferInstanceAs (Decidable (g.grid.length = g.height.toNat
    ∧ ∀ row ∈ g.grid, row.length = g.width.toNat))

/-- Alias for the value assigned to `new_grid[y][x]` in `next_generation`'s
loop body (for `x`, `y` drawn from `range`, hence natural numbers). -/
def newCell (g : GameOfLife) (x y : Nat) : Bool :=
  if GameOfLife.cellVal g (x : Int) (y : Int) then
    decide (2 ≤ g.count_neighbors (x : Int) (y : Int) ∧ g.count_neighbors (x : Int) (y : Int) ≤ 3)
  else
    decide (g.count_neighbors (x : Int) (y : Int) = 3)

/-- A single neighbor's contribution inside `count_neighbors`: 1 when the
coordinate is in bounds and the cell there is alive, 0 otherwise. -/
def nbTerm (g : GameOfLife) (nx ny : Int) : Int :=
  if 0 ≤ nx ∧ nx < g.width ∧ 0 ≤ ny ∧ ny < g.height then
    (if GameOfLife.cellVal g nx ny then 1 else 0)
  else 0

/-- Number of cells of the pattern `pat` among the 8 Moore neighbors of
`(x, y)`: the specialization of `count_neighbors` to a grid whose alive
cells are exactly `pat`. -/
def patCount (pat : List (Int × Int)) (x y : Int) : Int :=
  (neighborOffsets.map (fun d => if (x + d.1, y + d.2) ∈ pat then 1 else 0)).sum

/-- Cells of the horizontal blinker. -/
def blinkerH : List (Int × Int) := [(1, 2), (2, 2), (3, 2)]

/-- Cells of the vertical blinker. -/
def blinkerV : List (Int × Int) := [(2, 1), (2, 2), (2, 3)]

/-- A 5 by 5 grid holding the horizontal blinker, built through the public
operations. -/
def blinker5 : GameOfLife :=
  (((GameOfLife.init 5 5).toggle_cell 1 2).toggle_cell 2 2).toggle_cell 3 2

theorem getD_replicate {α : Type} {n i : Nat} (a d : α) :
    (List.replicate n a).getD i d = if i < n then a else d := by
  rw [List.getD_eq_getElem?_getD, List.getElem?_replicate]
  by_cases h : i < n <;> simp [h]

theorem getD_set_self {α : Type} {l : List α} {i : Nat} (a d : α) (h : i < l.length) :
    (l.set i a).getD i d = a := by
  rw [List.getD_eq_getElem?_getD, List.getElem?_set]
  simp [h]

theorem getD_set_ne {α : Type} {l : List α} {i j : Nat} (a d : α) (h : i ≠ j) :
    (l.set i a).getD j d = l.getD j d := by
  rw [List.getD_eq_getElem?_getD, List.getElem?_set, List.getD_eq_getElem?_getD]
  simp [h]

theorem set_getD_self {α : Type} {l : List α} {i : Nat} (d : α) (h : i < l.length) :
    l.set i (l.getD i d) = l := by
  apply List.ext_getElem?
  intro n
  rw [List.getElem?_set]
  by_cases hin : i = n
  · subst hin
    simp [h, List.getD_eq_getElem l d h, List.getElem?_eq_getElem h]
  · simp [hin]

theorem getD_map_range {α : Type} (f : Nat → α) (n i : Nat) (d : α) :
    ((List.range n).map f).getD i d = if i < n then f i else d := by
  rw [List.getD_eq_getElem?_getD]
  by_cases h : i < n
  · rw [List.getElem?_eq_getElem (by simpa using h)]
    simp [h, List.getElem_range]
  · rw [List.getElem?_eq_none (by simpa using Nat.le_of_not_lt h)]
    simp [h]

namespace GameOfLife

theorem width_toggle (g : GameOfLife) (x y : Int) : (g.toggle_cell x y).width = g.width := by
  unfold toggle_cell
  split <;> rfl

theorem height_toggle (g : GameOfLife) (x y : Int) : (g.toggle_cell x y).height = g.height := by
  unfold toggle_cell
  split <;> rfl

theorem width_next (g : GameOfLife) : g.next_generation.width = g.width := rfl

theorem height_next (g : GameOfLife) : g.next_generation.height = g.height := rfl

theorem width_clear (g : GameOfLife) : g.clear_grid.width = g.width := rfl

theorem height_clear (g : GameOfLife) : g.clear_grid.height = g.height := rfl

theorem getD_getD_replicate (A B i j : Nat) :
    ((List.replicate A (List.replicate B false)).getD i []).getD j false = false := by
  rw [getD_replicate]
  by_cases h : i < A
  · rw [if_pos h, getD_replicate]
    by_cases h2 : j < B <;> simp [h2]
  · rw [if_neg h]
    rfl

theorem cellVal_init (w h x y : Int) : cellVal (init w h) x y = false := by
  simp only [cellVal, init]
  exact getD_getD_replicate _ _ _ _

theorem cellVal_clear (g : GameOfLife) (x y : Int) : cellVal g.clear_grid x y = false := by
  simp only [cellVal, clear_grid]
  exact getD_getD_replicate _ _ _ _

end GameOfLife

theorem row_fold (f : Nat → Bool) :
    ∀ (w : Nat) (r : List Bool), w ≤ r.length →
      (List.range w).foldl (fun r x => r.set x (f x)) r
        = (List.range w).map f ++ r.drop w := by
  intro w
  induction w with
  | zero => intro r _; simp
  | succ w ih =>
    intro r hw
    rw [List.range_succ, List.foldl_append, List.map_append, ih r (by omega)]
    rw [List.foldl_cons, List.foldl_nil, List.set_append]
    have hlen : ((List.range w).map f).length = w := by simp
    rw [hlen]
    rw [if_neg (by omega), Nat.sub_self]
    rw [List.drop_eq_getElem_cons (by omega : w < r.length), List.set_cons_zero]
    simp

theorem grid_row_fold (v : Nat → Bool) :
    ∀ (l : List Nat) (ng : List (List Bool)) (y : Nat), y < ng.length →
      l.foldl (fun ng x => ng.set y ((ng.getD y []).set x (v x))) ng
        = ng.set y (l.foldl (fun r x => r.set x (v x)) (ng.getD y [])) := by
  intro l
  induction l with
  | nil =>
    intro ng y hy
    rw [List.foldl_nil, List.foldl_nil, set_getD_self [] hy]
  | cons x l ih =>
    intro ng y hy
    rw [List.foldl_cons, List.foldl_cons]
    rw [ih _ y (by simpa using hy)]
    rw [List.set_set]
    rw [getD_set_self _ _ hy]

theorem grid_fold (v : Nat → Nat → Bool) (w : Nat) :
    ∀ (h : Nat) (ng : List (List Bool)), h ≤ ng.length →
      (List.range h).foldl (fun ng y =>
          (List.range w).foldl (fun ng x => ng.set y ((ng.getD y []).set x (v x y))) ng) ng
        = (List.range h).map (fun y =>
            (List.range w).foldl (fun r x => r.set x (v x y)) (ng.getD y [])) ++ ng.drop h := by
  intro h
  induction h with
  | zero => intro ng _; simp
  | succ h ih =>
    intro ng hh
    rw [List.range_succ, List.foldl_append, List.map_append, ih ng (by omega)]
    rw [List.foldl_cons, List.foldl_nil]
    have hlenM :
        ((List.range h).map (fun y =>
          (List.range w).foldl (fun r x => r.set x (v x y)) (ng.getD y []))).length = h := by
      simp
    have hgd :
        (((List.range h).map (fun y =>
            (List.range w).foldl (fun r x => r.set x (v x y)) (ng.getD y []))) ++ ng.drop h).getD h []
          = ng.getD h [] := by
      rw [List.getD_eq_getElem?_getD, List.getElem?_append, hlenM]
      rw [if_neg (by omega), Nat.sub_self]
      rw [List.getElem?_drop]
      simp [List.getD_eq_getElem?_getD]
    rw [grid_row_fold _ _ _ h (by simp [hlenM]; omega)]
    rw [hgd, List.set_append, hlenM]
    rw [if_neg (by omega), Nat.sub_self]
    rw [List.drop_eq_getElem_cons (by omega : h < ng.length), List.set_cons_zero]
    simp

theorem GameOfLife.next_generation_grid (g : GameOfLife) :
    g.next_generation.grid
      = (List.range g.height.toNat).map (fun y =>
          (List.range g.width.toNat).map (fun x => newCell g x y)) := by
  have hfold := grid_fold
    (fun x y => if GameOfLife.cellVal g (x : Int) (y : Int) then
        decide (2 ≤ g.count_neighbors (x : Int) (y : Int) ∧ g.count_neighbors (x : Int) (y : Int) ≤ 3)
      else decide (g.count_neighbors (x : Int) (y : Int) = 3))
    g.width.toNat g.height.toNat
    (List.replicate g.height.toNat (List.replicate g.width.toNat false))
    (by simp)
  simp only [GameOfLife.next_generation]
  rw [hfold]
  have hdrop :
      List.drop g.height.toNat
        (List.replicate g.height.toNat (List.replicate g.width.toNat false)) = [] := by
    simp
  rw [hdrop, List.append_nil]
  apply List.map_congr_left
  intro y hy
  rw [getD_replicate, if_pos (List.mem_range.mp hy)]
  rw [row_fold _ _ _ (by simp)]
  simp [newCell]

theorem foldl_count {α : Type} (step : Int → α → Int) (s : α → Int)
    (hstep : ∀ c a, step c a = c + s a) :
    ∀ (l : List α) (init : Int), l.foldl step init = init + (l.map s).sum := by
  intro l
  induction l with
  | nil => intro init; simp
  | cons a l ih =>
    intro init
    rw [List.foldl_cons, ih, hstep]
    simp [add_assoc]

theorem GameOfLife.count_neighbors_eq_sum (g : GameOfLife) (x y : Int) :
    g.count_neighbors x y
      = (neighborOffsets.map (fun d => nbTerm g (x + d.1) (y + d.2))).sum := by
  unfold GameOfLife.count_neighbors
  rw [foldl_count _
    (fun dy => (([-1, 0, 1] : List Int).map (fun dx =>
      if dx = 0 ∧ dy = 0 then 0 else nbTerm g (x + dx) (y + dy))).sum)
    (fun c dy => foldl_count _
      (fun dx => if dx = 0 ∧ dy = 0 then 0 else nbTerm g (x + dx) (y + dy))
      (fun c' dx => by
        by_cases h1 : dx = 0 ∧ dy = 0
        · simp [h1]
        · simp only [if_neg h1, nbTerm]
          by_cases h2 : 0 ≤ x + dx ∧ x + dx < g.width ∧ 0 ≤ y + dy ∧ y + dy < g.height
          · rw [if_pos h2, if_pos h2]
          · rw [if_neg h2, if_neg h2, add_zero])
      _ c)]
  simp only [neighborOffsets, List.map_cons, List.map_nil, List.sum_cons, List.sum_nil]
  norm_num
  ring

theorem sum_indicator_eq_filter_length {α : Type} (p : α → Bool) :
    ∀ l : List α,
      (l.map (fun a => if p a then (1 : Int) else 0)).sum = ((l.filter p).length : Int) := by
  intro l
  induction l with
  | nil => simp
  | cons a l ih =>
    by_cases h : p a <;>
      simp [List.filter_cons, h, ih] <;> push_cast <;> ring

theorem nbTerm_eq_indicator (g : GameOfLife) (nx ny : Int) :
    nbTerm g nx ny
      = if (decide (0 ≤ nx ∧ nx < g.width ∧ 0 ≤ ny ∧ ny < g.height)
            && GameOfLife.cellVal g nx ny) then 1 else 0 := by
  unfold nbTerm
  by_cases h1 : 0 ≤ nx ∧ nx < g.width ∧ 0 ≤ ny ∧ ny < g.height <;>
    by_cases h2 : GameOfLife.cellVal g nx ny <;> simp [h1, h2]

theorem GameOfLife.count_neighbors_eq_filter (g : GameOfLife) (x y : Int) :
    g.count_neighbors x y
      = ((neighborOffsets.filter (fun d =>
            decide (0 ≤ x + d.1 ∧ x + d.1 < g.width ∧ 0 ≤ y + d.2 ∧ y + d.2 < g.height)
            && GameOfLife.cellVal g (x + d.1) (y + d.2))).length : Int) := by
  rw [GameOfLife.count_neighbors_eq_sum]
  simp only [nbTerm_eq_indicator]
  exact sum_indicator_eq_filter_length _ neighborOffsets

theorem GameOfLife.count_neighbors_nonneg (g : GameOfLife) (x y : Int) :
    0 ≤ g.count_neighbors x y := by
  rw [GameOfLife.count_neighbors_eq_filter]
  exact Int.natCast_nonneg _

theorem GameOfLife.count_neighbors_le_eight (g : GameOfLife) (x y : Int) :
    g.count_neighbors x y ≤ 8 := by
  rw [GameOfLife.count_neighbors_eq_filter]
  have hle := List.length_filter_le (fun d =>
    decide (0 ≤ x + d.1 ∧ x + d.1 < g.width ∧ 0 ≤ y + d.2 ∧ y + d.2 < g.height)
    && GameOfLife.cellVal g (x + d.1) (y + d.2)) neighborOffsets
  have h8 : neighborOffsets.length = 8 := rfl
  omega

theorem GameOfLife.cellVal_next (g : GameOfLife) (x y : Int)
    (hx0 : 0 ≤ x) (hxw : x < g.width) (hy0 : 0 ≤ y) (hyh : y < g.height) :
    cellVal g.next_generation x y = newCell g x.toNat y.toNat := by
  have hy : y.toNat < g.height.toNat := by omega
  have hx : x.toNat < g.width.toNat := by omega
  simp only [GameOfLife.cellVal, GameOfLife.next_generation_grid]
  rw [getD_map_range, if_pos hy, getD_map_range, if_pos hx]

theorem GameOfLife.cellVal_next_rule (g : GameOfLife) (x y : Int)
    (hx0 : 0 ≤ x) (hxw : x < g.width) (hy0 : 0 ≤ y) (hyh : y < g.height) :
    cellVal g.next_generation x y
      = if cellVal g x y then
          decide (2 ≤ g.count_neighbors x y ∧ g.count_neighbors x y ≤ 3)
        else decide (g.count_neighbors x y = 3) := by
  rw [GameOfLife.cellVal_next g x y hx0 hxw hy0 hyh]
  unfold newCell
  rw [Int.toNat_of_nonneg hx0, Int.toNat_of_nonneg hy0]

namespace GameOfLife

theorem wf_init (w h : Int) : (init w h).WF := by
  constructor
  · simp [init]
  · intro row hrow
    simp only [init, List.mem_replicate] at hrow
    rw [hrow.2]
    simp [init]

theorem wf_clear (g : GameOfLife) : g.clear_grid.WF := by
  constructor
  · simp [clear_grid]
  · intro row hrow
    simp only [clear_grid, List.mem_replicate] at hrow
    rw [hrow.2]
    simp [clear_grid]

theorem wf_next (g : GameOfLife) : g.next_generation.WF := by
  constructor
  · rw [next_generation_grid]
    simp [height_next]
  · intro row hrow
    rw [next_generation_grid] at hrow
    rcases List.mem_map.mp hrow with ⟨y, _, hrwEq⟩
    rw [← hrwEq]
    simp [width_next]

theorem wf_toggle (g : GameOfLife) (x y : Int) (hwf : g.WF) : (g.toggle_cell x y).WF := by
  by_cases hb : 0 ≤ x ∧ x < g.width ∧ 0 ≤ y ∧ y < g.height
  · have hy : y.toNat < g.grid.length := by
      rw [hwf.1]
      omega
    constructor
    · simp only [toggle_cell, if_pos hb, List.length_set]
      exact hwf.1
    · intro row hrow
      simp only [toggle_cell, if_pos hb] at hrow
      rw [width_toggle]
      rcases List.mem_or_eq_of_mem_set hrow with hmem | heq
      · exact hwf.2 row hmem
      · rw [heq, List.length_set, List.getD_eq_getElem _ _ hy]
        exact hwf.2 _ (List.getElem_mem hy)
  · simp only [toggle_cell, if_neg hb]
    exact hwf

theorem wf_applyOp (g : GameOfLife) (op : Op) (hwf : g.WF) : (applyOp g op).WF := by
  cases op with
  | toggle x y => exact wf_toggle g x y hwf
  | next => exact wf_next g
  | clear => exact wf_clear g
  | count x y => exact hwf

theorem wf_runOps (ops : List Op) :
    ∀ (g : GameOfLife), g.WF → (runOps g ops).WF := by
  induction ops with
  | nil => intro g hwf; exact hwf
  | cons op ops ih =>
    intro g hwf
    exact ih _ (wf_applyOp g op hwf)

theorem width_applyOp (g : GameOfLife) (op : Op) : (applyOp g op).width = g.width := by
  cases op with
  | toggle x y => exact width_toggle g x y
  | next => rfl
  | clear => rfl
  | count x y => rfl

theorem height_applyOp (g : GameOfLife) (op : Op) : (applyOp g op).height = g.height := by
  cases op with
  | toggle x y => exact height_toggle g x y
  | next => rfl
  | clear => rfl
  | count x y => rfl

theorem width_runOps (ops : List Op) :
    ∀ g : GameOfLife, (runOps g ops).width = g.width := by
  induction ops with
  | nil => intro g; rfl
  | cons op ops ih =>
    intro g
    rw [runOps, List.foldl_cons]
    rw [show List.foldl applyOp (applyOp g op) ops = runOps (applyOp g op) ops from rfl]
    rw [ih (applyOp g op), width_applyOp]

theorem height_runOps (ops : List Op) :
    ∀ g : GameOfLife, (runOps g ops).height = g.height := by
  induction ops with
  | nil => intro g; rfl
  | cons op ops ih =>
    intro g
    rw [runOps, List.foldl_cons]
    rw [show List.foldl applyOp (applyOp g op) ops = runOps (applyOp g op) ops from rfl]
    rw [ih (applyOp g op), height_applyOp]

end GameOfLife

namespace GameOfLife

theorem toggle_oob (g : GameOfLife) (x y : Int)
    (hb : ¬(0 ≤ x ∧ x < g.width ∧ 0 ≤ y ∧ y < g.height)) :
    g.toggle_cell x y = g := by
  simp only [toggle_cell, if_neg hb]

theorem cellVal_toggle_self (g : GameOfLife) (x y : Int) (hwf : g.WF)
    (hb : 0 ≤ x ∧ x < g.width ∧ 0 ≤ y ∧ y < g.height) :
    cellVal (g.toggle_cell x y) x y = ! cellVal g x y := by
  obtain ⟨hx0, hxw, hy0, hyh⟩ := hb
  have hy : y.toNat < g.grid.length := by
    rw [hwf.1]
    omega
  have hx : x.toNat < (g.grid.getD y.toNat []).length := by
    rw [List.getD_eq_getElem _ _ hy, hwf.2 _ (List.getElem_mem hy)]
    omega
  simp only [toggle_cell, if_pos (⟨hx0, hxw, hy0, hyh⟩ : _ ∧ _ ∧ _ ∧ _), cellVal]
  rw [getD_set_self _ _ hy, getD_set_self _ _ hx]

theorem cellVal_toggle_other (g : GameOfLife) (x y x2 y2 : Int) (hwf : g.WF)
    (hb : 0 ≤ x ∧ x < g.width ∧ 0 ≤ y ∧ y < g.height)
    (hx20 : 0 ≤ x2) (hy20 : 0 ≤ y2)
    (hne : ¬(x2 = x ∧ y2 = y)) :
    cellVal (g.toggle_cell x y) x2 y2 = cellVal g x2 y2 := by
  obtain ⟨hx0, hxw, hy0, hyh⟩ := hb
  have hy : y.toNat < g.grid.length := by
    rw [hwf.1]
    omega
  simp only [toggle_cell, if_pos (⟨hx0, hxw, hy0, hyh⟩ : _ ∧ _ ∧ _ ∧ _), cellVal]
  by_cases hyy : y2.toNat = y.toNat
  · have hy2y : y2 = y := by omega
    have hxx : x.toNat ≠ x2.toNat := by
      have hx2x : x2 ≠ x := fun hc => hne ⟨hc, hy2y⟩
      omega
    rw [hyy, getD_set_self _ _ hy, getD_set_ne _ _ hxx]
  · rw [getD_set_ne _ _ (fun hc => hyy hc.symm)]

theorem toggle_toggle (g : GameOfLife) (x y : Int) (hwf : g.WF)
    (hb : 0 ≤ x ∧ x < g.width ∧ 0 ≤ y ∧ y < g.height) :
    (g.toggle_cell x y).toggle_cell x y = g := by
  obtain ⟨hx0, hxw, hy0, hyh⟩ := hb
  have hy : y.toNat < g.grid.length := by
    rw [hwf.1]
    omega
  have hx : x.toNat < (g.grid.getD y.toNat []).length := by
    rw [List.getD_eq_getElem _ _ hy, hwf.2 _ (List.getElem_mem hy)]
    omega
  have htfull : g.toggle_cell x y
      = { g with grid :=
          g.grid.set y.toNat ((g.grid.getD y.toNat []).set x.toNat (! cellVal g x y)) } := by
    simp only [toggle_cell, if_pos (⟨hx0, hxw, hy0, hyh⟩ : _ ∧ _ ∧ _ ∧ _)]
  rw [htfull]
  simp only [toggle_cell, cellVal]
  rw [if_pos (⟨hx0, hxw, hy0, hyh⟩ : _ ∧ _ ∧ _ ∧ _)]
  rw [getD_set_self _ _ hy, List.set_set, getD_set_self _ _ hx, List.set_set]
  rw [Bool.not_not]
  rw [show (g.grid.getD y.toNat []).getD x.toNat false = cellVal g x y from rfl]
  rw [show cellVal g x y = (g.grid.getD y.toNat []).getD x.toNat false from rfl]
  rw [set_getD_self _ hx, set_getD_self _ hy]

end GameOfLife

/-- C1: for every grid state and every in-bounds coordinate `(x, y)`, after
one `next_generation()` the cell at `(x, y)` is Alive iff either it was
Alive in the previous generation with a previous-generation neighbor count
of 2 or 3, or it was Dead there with a count of exactly 3.  The right-hand
side refers only to the pre-step grid `g` (its cells and its neighbor
counts), which expresses that every new state is computed solely from the
previous generation, never from a cell already updated in the same step. -/
theorem C1_next_generation_rule (g : GameOfLife) (x y : Int)
    (hx0 : 0 ≤ x) (hxw : x < g.width) (hy0 : 0 ≤ y) (hyh : y < g.height) :
    GameOfLife.cellVal g.next_generation x y = true
      ↔ ((GameOfLife.cellVal g x y = true
            ∧ (g.count_neighbors x y = 2 ∨ g.count_neighbors x y = 3))
          ∨ (GameOfLife.cellVal g x y = false ∧ g.count_neighbors x y = 3)) := by
  rw [GameOfLife.cellVal_next_rule g x y hx0 hxw hy0 hyh]
  by_cases hc : GameOfLife.cellVal g x y <;> simp [hc] <;> omega

/-- Witness for C1 at the blinker grid: cell `(2, 1)` is Dead with exactly
3 alive neighbors, so it is Alive after the step. -/
theorem C1_witness :
    ((0 : Int) ≤ 2 ∧ (2 : Int) < blinker5.width ∧ (0 : Int) ≤ 1 ∧ (1 : Int) < blinker5.height)
    ∧ (GameOfLife.cellVal blinker5.next_generation 2 1 = true
        ↔ ((GameOfLife.cellVal blinker5 2 1 = true
              ∧ (blinker5.count_neighbors 2 1 = 2 ∨ blinker5.count_neighbors 2 1 = 3))
            ∨ (GameOfLife.cellVal blinker5 2 1 = false ∧ blinker5.count_neighbors 2 1 = 3))) :=
  ⟨⟨by decide, by decide, by decide, by decide⟩,
    C1_next_generation_rule blinker5 2 1 (by decide) (by decide) (by decide) (by decide)⟩

/-- C2: for every in-bounds `(x, y)`, `count_neighbors(x, y)` is the number
of Alive cells among the 8 Moore offsets whose shifted coordinate lies in
`[0, width) × [0, height)` (out-of-grid neighbors contribute nothing), and
the result lies in `[0, 8]`.  `count_neighbors` is modelled as a pure
function of the grid (its Python body contains no write to `self`), so the
call does not modify the grid. -/
theorem C2_count_neighbors_spec (g : GameOfLife) (x y : Int)
    (hx0 : 0 ≤ x) (hxw : x < g.width) (hy0 : 0 ≤ y) (hyh : y < g.height) :
    g.count_neighbors x y
        = ((neighborOffsets.filter (fun d =>
            decide (0 ≤ x + d.1 ∧ x + d.1 < g.width ∧ 0 ≤ y + d.2 ∧ y + d.2 < g.height)
            && GameOfLife.cellVal g (x + d.1) (y + d.2))).length : Int)
      ∧ 0 ≤ g.count_neighbors x y ∧ g.count_neighbors x y ≤ 8 :=
  ⟨GameOfLife.count_neighbors_eq_filter g x y, GameOfLife.count_neighbors_nonneg g x y,
    GameOfLife.count_neighbors_le_eight g x y⟩

/-- Witness for C2 at the blinker grid, cell `(2, 2)`. -/
theorem C2_witness :
    ((0 : Int) ≤ 2 ∧ (2 : Int) < blinker5.width ∧ (0 : Int) ≤ 2 ∧ (2 : Int) < blinker5.height)
    ∧ (blinker5.count_neighbors 2 2
          = ((neighborOffsets.filter (fun d =>
              decide (0 ≤ 2 + d.1 ∧ 2 + d.1 < blinker5.width ∧ 0 ≤ 2 + d.2 ∧ 2 + d.2 < blinker5.height)
              && GameOfLife.cellVal blinker5 (2 + d.1) (2 + d.2))).length : Int)
        ∧ 0 ≤ blinker5.count_neighbors 2 2 ∧ blinker5.count_neighbors 2 2 ≤ 8) :=
  ⟨⟨by decide, by decide, by decide, by decide⟩,
    C2_count_neighbors_spec blinker5 2 2 (by decide) (by decide) (by decide) (by decide)⟩

/-- C3 counterexample: constructing the engine with the non-positive
dimensions `(0, 0)` does not raise and is not rejected — `__init__`
succeeds, producing the engine with the empty grid. -/
theorem C3_counterexample :
    GameOfLife.initE 0 0 = Except.ok (GameOfLife.init 0 0)
    ∧ (GameOfLife.init 0 0).grid = [] :=
  ⟨rfl, rfl⟩

/-- C3 amended: `GameOfLife.__init__` performs no dimension validation —
for every `width ≤ 0` or `height ≤ 0`, construction still succeeds without
any error; the rejection of non-positive dimensions happens only in the
configuration provider (`SettingsFrame.save` raises `ValueError` when
`width < 1` or `height < 1`). -/
theorem C3_amended (w h : Int) (hwh : w ≤ 0 ∨ h ≤ 0) :
    GameOfLife.initE w h = Except.ok (GameOfLife.init w h)
    ∧ ∀ cs iv : Int, settingsSaveAccepts w h cs iv = false := by
  refine ⟨rfl, fun cs iv => ?_⟩
  unfold settingsSaveAccepts
  rw [if_pos (show w < 1 ∨ h < 1 ∨ cs < 1 ∨ iv < 1 by omega)]

/-- Witness for the amended C3 at `(0, 0)`. -/
theorem C3_witness :
    ((0 : Int) ≤ 0 ∨ (0 : Int) ≤ 0)
    ∧ (GameOfLife.initE 0 0 = Except.ok (GameOfLife.init 0 0)
        ∧ ∀ cs iv : Int, settingsSaveAccepts 0 0 cs iv = false) :=
  ⟨Or.inl (by decide), C3_amended 0 0 (Or.inl (by decide))⟩

/-- C4: `toggle_cell(x, y)` on an out-of-bounds coordinate leaves the whole
engine unchanged (and, being a no-op, raises no error), while on an
in-bounds coordinate it flips exactly the cell at `(x, y)` and leaves every
other in-bounds cell unchanged. -/
theorem C4_toggle_cell_spec (g : GameOfLife) (x y : Int) (hwf : g.WF) :
    (¬(0 ≤ x ∧ x < g.width ∧ 0 ≤ y ∧ y < g.height) → g.toggle_cell x y = g)
    ∧ ((0 ≤ x ∧ x < g.width ∧ 0 ≤ y ∧ y < g.height) →
        GameOfLife.cellVal (g.toggle_cell x y) x y = ! GameOfLife.cellVal g x y
        ∧ ∀ x2 y2 : Int, 0 ≤ x2 → x2 < g.width → 0 ≤ y2 → y2 < g.height →
            ¬(x2 = x ∧ y2 = y) →
            GameOfLife.cellVal (g.toggle_cell x y) x2 y2 = GameOfLife.cellVal g x2 y2) := by
  constructor
  · exact GameOfLife.toggle_oob g x y
  · intro hb
    refine ⟨GameOfLife.cellVal_toggle_self g x y hwf hb, ?_⟩
    intro x2 y2 hx20 _ hy20 _ hne
    exact GameOfLife.cellVal_toggle_other g x y x2 y2 hwf hb hx20 hy20 hne

/-- Witness for C4 on a fresh 3 by 3 grid at `(1, 2)`. -/
theorem C4_witness :
    (GameOfLife.init 3 3).WF
    ∧ ((0 : Int) ≤ 1 ∧ (1 : Int) < (GameOfLife.init 3 3).width
        ∧ (0 : Int) ≤ 2 ∧ (2 : Int) < (GameOfLife.init 3 3).height)
    ∧ (GameOfLife.cellVal ((GameOfLife.init 3 3).toggle_cell 1 2) 1 2
          = ! GameOfLife.cellVal (GameOfLife.init 3 3) 1 2
        ∧ ∀ x2 y2 : Int, 0 ≤ x2 → x2 < (GameOfLife.init 3 3).width
            → 0 ≤ y2 → y2 < (GameOfLife.init 3 3).height
            → ¬(x2 = 1 ∧ y2 = 2)
            → GameOfLife.cellVal ((GameOfLife.init 3 3).toggle_cell 1 2) x2 y2
                = GameOfLife.cellVal (GameOfLife.init 3 3) x2 y2) :=
  ⟨by decide, ⟨by decide, by decide, by decide, by decide⟩,
    (C4_toggle_cell_spec (GameOfLife.init 3 3) 1 2 (by decide)).2
      ⟨by decide, by decide, by decide, by decide⟩⟩

/-- C5: after `clear_grid()` every cell reads Dead and the dimensions are
unchanged; likewise a freshly constructed engine has every cell Dead.  The
statement holds for all integer coordinates, in particular all in-bounds
ones. -/
theorem C5_clear_grid_spec (g : GameOfLife) (w h x y x2 y2 : Int) :
    GameOfLife.cellVal g.clear_grid x y = false
    ∧ g.clear_grid.width = g.width ∧ g.clear_grid.height = g.height
    ∧ GameOfLife.cellVal (GameOfLife.init w h) x2 y2 = false :=
  ⟨GameOfLife.cellVal_clear g x y, rfl, rfl, GameOfLife.cellVal_init w h x2 y2⟩

/-- C6: toggling the same in-bounds cell twice restores the engine to
exactly its original state. -/
theorem C6_toggle_involution (g : GameOfLife) (x y : Int) (hwf : g.WF)
    (hx0 : 0 ≤ x) (hxw : x < g.width) (hy0 : 0 ≤ y) (hyh : y < g.height) :
    (g.toggle_cell x y).toggle_cell x y = g :=
  GameOfLife.toggle_toggle g x y hwf ⟨hx0, hxw, hy0, hyh⟩

/-- Witness for C6 on a fresh 4 by 4 grid at `(2, 3)`. -/
theorem C6_witness :
    (GameOfLife.init 4 4).WF
    ∧ (0 : Int) ≤ 2 ∧ (2 : Int) < (GameOfLife.init 4 4).width
    ∧ (0 : Int) ≤ 3 ∧ (3 : Int) < (GameOfLife.init 4 4).height
    ∧ ((GameOfLife.init 4 4).toggle_cell 2 3).toggle_cell 2 3 = GameOfLife.init 4 4 :=
  ⟨by decide, by decide, by decide, by decide, by decide,
    C6_toggle_involution (GameOfLife.init 4 4) 2 3 (by decide)
      (by decide) (by decide) (by decide) (by decide)⟩

/-- C8: for every engine constructed with `(w, h)` and every sequence of
`toggle_cell`, `next_generation`, `clear_grid` and `count_neighbors`
operations, the dimensions still read `(w, h)` afterwards. -/
theorem C8_dims_immutable (w h : Int) (ops : List Op) :
    (runOps (GameOfLife.init w h) ops).width = w
    ∧ (runOps (GameOfLife.init w h) ops).height = h := by
  rw [GameOfLife.width_runOps, GameOfLife.height_runOps]
  exact ⟨rfl, rfl⟩

/-- C9: after construction with positive dimensions and after every
sequence of operations, the grid consists of exactly `height` rows of
exactly `width` entries each. -/
theorem C9_grid_shape (w h : Int) (hw : 0 < w) (hh : 0 < h) (ops : List Op) :
    (runOps (GameOfLife.init w h) ops).grid.length = h.toNat
    ∧ ∀ row ∈ (runOps (GameOfLife.init w h) ops).grid, row.length = w.toNat := by
  have hwf := GameOfLife.wf_runOps ops (GameOfLife.init w h) (GameOfLife.wf_init w h)
  constructor
  · rw [hwf.1, GameOfLife.height_runOps]
    rfl
  · intro row hrow
    refine (hwf.2 row hrow).trans ?_
    rw [GameOfLife.width_runOps]
    rfl

/-- Witness for C9 with `(w, h) = (2, 3)` and a sample operation sequence. -/
theorem C9_witness :
    (0 : Int) < 2 ∧ (0 : Int) < 3
    ∧ ((runOps (GameOfLife.init 2 3)
          [Op.toggle 0 0, Op.next, Op.count 1 1, Op.clear]).grid.length = (3 : Int).toNat
        ∧ ∀ row ∈ (runOps (GameOfLife.init 2 3)
            [Op.toggle 0 0, Op.next, Op.count 1 1, Op.clear]).grid,
            row.length = (2 : Int).toNat) :=
  ⟨by decide, by decide,
    C9_grid_shape 2 3 (by decide) (by decide) [Op.toggle 0 0, Op.next, Op.count 1 1, Op.clear]⟩

/-- C10: the all-Dead grid is a fixed point of `next_generation`: if every
in-bounds cell is Dead then after one step every in-bounds cell is still
Dead. -/
theorem C10_all_dead_fixed (g : GameOfLife)
    (hdead : ∀ x y : Int, 0 ≤ x → x < g.width → 0 ≤ y → y < g.height →
      GameOfLife.cellVal g x y = false) :
    ∀ x y : Int, 0 ≤ x → x < g.width → 0 ≤ y → y < g.height →
      GameOfLife.cellVal g.next_generation x y = false := by
  intro x y hx0 hxw hy0 hyh
  have hcount : g.count_neighbors x y = 0 := by
    rw [GameOfLife.count_neighbors_eq_sum]
    have hz : ∀ d : Int × Int, nbTerm g (x + d.1) (y + d.2) = 0 := by
      intro d
      unfold nbTerm
      by_cases hbnd : 0 ≤ x + d.1 ∧ x + d.1 < g.width ∧ 0 ≤ y + d.2 ∧ y + d.2 < g.height
      · rw [if_pos hbnd, hdead _ _ hbnd.1 hbnd.2.1 hbnd.2.2.1 hbnd.2.2.2]
        simp
      · rw [if_neg hbnd]
    simp [neighborOffsets, hz]
  rw [GameOfLife.cellVal_next_rule g x y hx0 hxw hy0 hyh, hdead x y hx0 hxw hy0 hyh]
  simp [hcount]

/-- Witness for C10 on a fresh all-Dead 4 by 4 grid, via `cellVal_init`. -/
theorem C10_witness :
    (∀ x y : Int, 0 ≤ x → x < (GameOfLife.init 4 4).width
        → 0 ≤ y → y < (GameOfLife.init 4 4).height
        → GameOfLife.cellVal (GameOfLife.init 4 4) x y = false)
    ∧ (∀ x y : Int, 0 ≤ x → x < (GameOfLife.init 4 4).width
        → 0 ≤ y → y < (GameOfLife.init 4 4).height
        → GameOfLife.cellVal (GameOfLife.init 4 4).next_generation x y = false) :=
  ⟨fun x y _ _ _ _ => GameOfLife.cellVal_init 4 4 x y,
    C10_all_dead_fixed (GameOfLife.init 4 4)
      (fun x y _ _ _ _ => GameOfLife.cellVal_init 4 4 x y)⟩

theorem GameOfLife.count_eq_patCount (g : GameOfLife) (pat : List (Int × Int))
    (hpb : ∀ p ∈ pat, 0 ≤ p.1 ∧ p.1 < g.width ∧ 0 ≤ p.2 ∧ p.2 < g.height)
    (hpat : ∀ x y : Int, 0 ≤ x → x < g.width → 0 ≤ y → y < g.height →
      (GameOfLife.cellVal g x y = true ↔ (x, y) ∈ pat))
    (x y : Int) :
    g.count_neighbors x y = patCount pat x y := by
  rw [GameOfLife.count_neighbors_eq_sum]
  unfold patCount
  have hterm : ∀ nx ny : Int, nbTerm g nx ny = if (nx, ny) ∈ pat then 1 else 0 := by
    intro nx ny
    unfold nbTerm
    by_cases hbnd : 0 ≤ nx ∧ nx < g.width ∧ 0 ≤ ny ∧ ny < g.height
    · rw [if_pos hbnd]
      by_cases hmem : (nx, ny) ∈ pat
      · rw [if_pos hmem,
          if_pos ((hpat nx ny hbnd.1 hbnd.2.1 hbnd.2.2.1 hbnd.2.2.2).mpr hmem)]
      · rw [if_neg hmem]
        have hcv : GameOfLife.cellVal g nx ny = false := by
          cases hcv2 : GameOfLife.cellVal g nx ny with
          | false => rfl
          | true =>
            exact absurd ((hpat nx ny hbnd.1 hbnd.2.1 hbnd.2.2.1 hbnd.2.2.2).mp hcv2) hmem
        rw [hcv]
        simp
    · rw [if_neg hbnd, if_neg (fun hmem => hbnd (hpb _ hmem))]
  simp only [hterm]

theorem blinkerH_patCount_zero (x y : Int)
    (hout : ¬(0 ≤ x ∧ x ≤ 4 ∧ 1 ≤ y ∧ y ≤ 3)) :
    patCount blinkerH x y = 0 := by
  have hgen : ∀ nx ny : Int, x - 1 ≤ nx → nx ≤ x + 1 → y - 1 ≤ ny → ny ≤ y + 1 →
      ¬((nx, ny) ∈ blinkerH) := by
    intro nx ny h1 h2 h3 h4 hmem
    simp only [blinkerH, List.mem_cons, List.not_mem_nil, or_false, Prod.mk.injEq] at hmem
    omega
  unfold patCount
  simp only [neighborOffsets, List.map_cons, List.map_nil, List.sum_cons, List.sum_nil]
  norm_num
  rw [if_neg (hgen (x + -1) (y + -1) (by omega) (by omega) (by omega) (by omega)),
    if_neg (hgen x (y + -1) (by omega) (by omega) (by omega) (by omega)),
    if_neg (hgen (x + 1) (y + -1) (by omega) (by omega) (by omega) (by omega)),
    if_neg (hgen (x + -1) y (by omega) (by omega) (by omega) (by omega)),
    if_neg (hgen (x + 1) y (by omega) (by omega) (by omega) (by omega)),
    if_neg (hgen (x + -1) (y + 1) (by omega) (by omega) (by omega) (by omega)),
    if_neg (hgen x (y + 1) (by omega) (by omega) (by omega) (by omega)),
    if_neg (hgen (x + 1) (y + 1) (by omega) (by omega) (by omega) (by omega))]
  norm_num

theorem blinkerV_patCount_zero (x y : Int)
    (hout : ¬(1 ≤ x ∧ x ≤ 3 ∧ 0 ≤ y ∧ y ≤ 4)) :
    patCount blinkerV x y = 0 := by
  have hgen : ∀ nx ny : Int, x - 1 ≤ nx → nx ≤ x + 1 → y - 1 ≤ ny → ny ≤ y + 1 →
      ¬((nx, ny) ∈ blinkerV) := by
    intro nx ny h1 h2 h3 h4 hmem
    simp only [blinkerV, List.mem_cons, List.not_mem_nil, or_false, Prod.mk.injEq] at hmem
    omega
  unfold patCount
  simp only [neighborOffsets, List.map_cons, List.map_nil, List.sum_cons, List.sum_nil]
  norm_num
  rw [if_neg (hgen (x + -1) (y + -1) (by omega) (by omega) (by omega) (by omega)),
    if_neg (hgen x (y + -1) (by omega) (by omega) (by omega) (by omega)),
    if_neg (hgen (x + 1) (y + -1) (by omega) (by omega) (by omega) (by omega)),
    if_neg (hgen (x + -1) y (by omega) (by omega) (by omega) (by omega)),
    if_neg (hgen (x + 1) y (by omega) (by omega) (by omega) (by omega)),
    if_neg (hgen (x + -1) (y + 1) (by omega) (by omega) (by omega) (by omega)),
    if_neg (hgen x (y + 1) (by omega) (by omega) (by omega) (by omega)),
    if_neg (hgen (x + 1) (y + 1) (by omega) (by omega) (by omega) (by omega))]
  norm_num

theorem blinkerH_step_arith (x y : Int) :
    (((x, y) ∈ blinkerH ∧ (patCount blinkerH x y = 2 ∨ patCount blinkerH x y = 3))
      ∨ ((x, y) ∉ blinkerH ∧ patCount blinkerH x y = 3))
    ↔ (x, y) ∈ blinkerV := by
  by_cases hreg : 0 ≤ x ∧ x ≤ 4 ∧ 1 ≤ y ∧ y ≤ 3
  · obtain ⟨h1, h2, h3, h4⟩ := hreg
    interval_cases x <;> interval_cases y <;> decide
  · rw [blinkerH_patCount_zero x y hreg]
    simp only [blinkerH, blinkerV, List.mem_cons, List.not_mem_nil, or_false,
      Prod.mk.injEq]
    omega

theorem blinkerV_step_arith (x y : Int) :
    (((x, y) ∈ blinkerV ∧ (patCount blinkerV x y = 2 ∨ patCount blinkerV x y = 3))
      ∨ ((x, y) ∉ blinkerV ∧ patCount blinkerV x y = 3))
    ↔ (x, y) ∈ blinkerH := by
  by_cases hreg : 1 ≤ x ∧ x ≤ 3 ∧ 0 ≤ y ∧ y ≤ 4
  · obtain ⟨h1, h2, h3, h4⟩ := hreg
    interval_cases x <;> interval_cases y <;> decide
  · rw [blinkerV_patCount_zero x y hreg]
    simp only [blinkerH, blinkerV, List.mem_cons, List.not_mem_nil, or_false,
      Prod.mk.injEq]
    omega

theorem GameOfLife.blinker_step (g : GameOfLife) (pat pat2 : List (Int × Int))
    (hpb : ∀ p ∈ pat, 0 ≤ p.1 ∧ p.1 < g.width ∧ 0 ≤ p.2 ∧ p.2 < g.height)
    (harith : ∀ x y : Int,
      (((x, y) ∈ pat ∧ (patCount pat x y = 2 ∨ patCount pat x y = 3))
        ∨ ((x, y) ∉ pat ∧ patCount pat x y = 3)) ↔ (x, y) ∈ pat2)
    (hpat : ∀ x y : Int, 0 ≤ x → x < g.width → 0 ≤ y → y < g.height →
      (GameOfLife.cellVal g x y = true ↔ (x, y) ∈ pat)) :
    ∀ x y : Int, 0 ≤ x → x < g.width → 0 ≤ y → y < g.height →
      (GameOfLife.cellVal g.next_generation x y = true ↔ (x, y) ∈ pat2) := by
  intro x y hx0 hxw hy0 hyh
  rw [← harith x y]
  rw [GameOfLife.cellVal_next_rule g x y hx0 hxw hy0 hyh]
  rw [GameOfLife.count_eq_patCount g pat hpb hpat x y]
  by_cases hc : GameOfLife.cellVal g x y = true
  · have hmem : (x, y) ∈ pat := (hpat x y hx0 hxw hy0 hyh).mp hc
    rw [if_pos hc, decide_eq_true_eq]
    constructor
    · intro hcnt
      exact Or.inl ⟨hmem, by omega⟩
    · intro hor
      rcases hor with ⟨_, h2⟩ | ⟨hnm, _⟩
      · omega
      · exact absurd hmem hnm
  · have hmem : (x, y) ∉ pat := fun hm => hc ((hpat x y hx0 hxw hy0 hyh).mpr hm)
    rw [if_neg hc, decide_eq_true_eq]
    constructor
    · intro h3
      exact Or.inr ⟨hmem, h3⟩
    · intro hor
      rcases hor with ⟨hm, _⟩ | ⟨_, h3⟩
      · exact absurd hm hmem
      · exact h3

/-- C7: in a grid of dimensions at least 5 by 5 whose only Alive cells are
the horizontal blinker `(1,2), (2,2), (3,2)`, one `next_generation()`
yields exactly the vertical blinker `(2,1), (2,2), (2,3)`, and a second
call restores every cell to its original state (period-2 oscillation). -/
theorem C7_blinker_period_two (g : GameOfLife)
    (hw : 5 ≤ g.width) (hh : 5 ≤ g.height) (hwf : g.WF)
    (hpat : ∀ x y : Int, 0 ≤ x → x < g.width → 0 ≤ y → y < g.height →
      (GameOfLife.cellVal g x y = true ↔ (x, y) ∈ blinkerH)) :
    (∀ x y : Int, 0 ≤ x → x < g.width → 0 ≤ y → y < g.height →
      (GameOfLife.cellVal g.next_generation x y = true ↔ (x, y) ∈ blinkerV))
    ∧ (∀ x y : Int, 0 ≤ x → x < g.width → 0 ≤ y → y < g.height →
        GameOfLife.cellVal g.next_generation.next_generation x y
          = GameOfLife.cellVal g x y) := by
  have hpbH : ∀ p ∈ blinkerH, 0 ≤ p.1 ∧ p.1 < g.width ∧ 0 ≤ p.2 ∧ p.2 < g.height := by
    intro p hp
    simp only [blinkerH, List.mem_cons, List.not_mem_nil, or_false] at hp
    rcases hp with rfl | rfl | rfl <;> refine ⟨?_, ?_, ?_, ?_⟩ <;> simp <;> omega
  have step1 := GameOfLife.blinker_step g blinkerH blinkerV hpbH blinkerH_step_arith hpat
  have hpbV : ∀ p ∈ blinkerV,
      0 ≤ p.1 ∧ p.1 < g.next_generation.width ∧ 0 ≤ p.2 ∧ p.2 < g.next_generation.height := by
    intro p hp
    simp only [blinkerV, List.mem_cons, List.not_mem_nil, or_false] at hp
    rcases hp with rfl | rfl | rfl <;> refine ⟨?_, ?_, ?_, ?_⟩ <;>
      simp [GameOfLife.width_next, GameOfLife.height_next] <;> omega
  have step2 := GameOfLife.blinker_step g.next_generation blinkerV blinkerH hpbV
    blinkerV_step_arith
    (fun x y hx0 hxw hy0 hyh => step1 x y hx0 hxw hy0 hyh)
  refine ⟨step1, ?_⟩
  intro x y hx0 hxw hy0 hyh
  have hAB := (step2 x y hx0 hxw hy0 hyh).trans (hpat x y hx0 hxw hy0 hyh).symm
  cases hcv2 : GameOfLife.cellVal g.next_generation.next_generation x y <;>
    cases hcv : GameOfLife.cellVal g x y <;> simp_all

/-- Witness for C7 at the concrete 5 by 5 blinker grid. -/
theorem C7_witness :
    ((5 : Int) ≤ blinker5.width ∧ (5 : Int) ≤ blinker5.height ∧ blinker5.WF
      ∧ (∀ x y : Int, 0 ≤ x → x < blinker5.width → 0 ≤ y → y < blinker5.height →
          (GameOfLife.cellVal blinker5 x y = true ↔ (x, y) ∈ blinkerH)))
    ∧ ((∀ x y : Int, 0 ≤ x → x < blinker5.width → 0 ≤ y → y < blinker5.height →
          (GameOfLife.cellVal blinker5.next_generation x y = true ↔ (x, y) ∈ blinkerV))
        ∧ (∀ x y : Int, 0 ≤ x → x < blinker5.width → 0 ≤ y → y < blinker5.height →
            GameOfLife.cellVal blinker5.next_generation.next_generation x y
              = GameOfLife.cellVal blinker5 x y)) := by
  have hpat : ∀ x y : Int, 0 ≤ x → x < blinker5.width → 0 ≤ y → y < blinker5.height →
      (GameOfLife.cellVal blinker5 x y = true ↔ (x, y) ∈ blinkerH) := by
    intro x y hx0 hxw hy0 hyh
    have hxw5 : x < 5 := hxw
    have hyh5 : y < 5 := hyh
    interval_cases x <;> interval_cases y <;> decide
  exact ⟨⟨by decide, by decide, by decide, hpat⟩,
    C7_blinker_period_two blinker5 (by decide) (by decide) (by decide) hpat⟩
